import Mathlib

/-!
Verification of `gmail_processor/main.py`.

The Python program locates Gmail messages, walks each message's nested
part tree for attachments of configured MIME types, fetches and decodes
the first qualifying attachment, converts it to text (real extraction
for PDF, a placeholder string otherwise) and pushes one record per
successful message to a dataset sink.

The embedding below mirrors the Python source.  Python dictionaries
with optional keys become structures with `Option` fields; Python
truthiness of strings, byte strings and lists is made explicit
(`s ≠ ""`, `bs ≠ []`); external collaborators (Gmail API calls, the
base64url decoder, pdfminer) are fields of an `Env` record, and calls
that may raise are `Except` valued.  Exceptions that the code catches
per message are represented by an `Except` layer `processMessageExc`
whose errors the catching wrapper `processMessage` turns into `none`.
-/

namespace GmailProcessor

/-- The `body` sub-dictionary of a Gmail message part: only the
`attachmentId` key is ever read by the program. -/
structure Body where
  attachmentId : Option String
  deriving Repr, DecidableEq

/-- A node of the message part tree, as read by the Python code:
`mimeType`, `filename`, `body` and `parts` are all optional dictionary
keys. -/
inductive MessagePart : Type where
  | mk : (mimeType : Option String) → (filename : Option String) →
         (body : Option Body) → (parts : Option (List MessagePart)) → MessagePart

/-- `part.get('mimeType')` -/
def MessagePart.mimeType : MessagePart → Option String
  | .mk m _ _ _ => m

/-- `part.get('filename')` -/
def MessagePart.filename : MessagePart → Option String
  | .mk _ f _ _ => f

/-- `part.get('body', {})` -/
def MessagePart.body : MessagePart → Option Body
  | .mk _ _ b _ => b

/-- `'parts' in part` / `part['parts']` -/
def MessagePart.parts : MessagePart → Option (List MessagePart)
  | .mk _ _ _ ps => ps

/-- `part.get('body', {}).get('attachmentId')` -/
def MessagePart.attId (p : MessagePart) : Option String :=
  match p.body with
  | some b => b.attachmentId
  | none => none

/-- Python truthiness of an optional string: present and non-empty. -/
def optStrTruthy : Option String → Bool
  | some s => s ≠ ""
  | none => false

/-- `part.get('mimeType') in target_mimes` (an absent key is `None`,
which is never a member of a list of strings). -/
def mimeMatches (p : MessagePart) (target_mimes : List String) : Bool :=
  match p.mimeType with
  | some m => target_mimes.contains m
  | none => false

/-- The qualification test of `find_mime_parts` (main.py line 64): the
part's MIME type is in the allow-list and its body carries a truthy
(non-empty) attachment id. -/
def partQualifies (p : MessagePart) (target_mimes : List String) : Bool :=
  mimeMatches p target_mimes && optStrTruthy p.attId

/-- `find_mime_parts` (main.py lines 55–72): recursive search of the
part list for qualifying parts; a matching part is appended before its
descendants are searched, siblings in list order. -/
def find_mime_parts : List MessagePart → List String → List MessagePart
  | [], _ => []
  | part :: rest, target_mimes =>
    (if partQualifies part target_mimes then [part] else [])
      ++ (match part with
          | .mk _ _ _ (some subs) => find_mime_parts subs target_mimes
          | .mk _ _ _ none => [])
      ++ find_mime_parts rest target_mimes

/-- The Python parameter `parts` is also falsy when `None` is passed;
`if not parts: return found_parts` returns the empty list then. -/
def find_mime_parts_opt (parts : Option (List MessagePart)) (target_mimes : List String) :
    List MessagePart :=
  match parts with
  | none => []
  | some ps => find_mime_parts ps target_mimes

/-- Modelled from the spec: the depth-first pre-order flattening of a
part forest (each node before its descendants, siblings in given
order), used to state what "pre-order traversal order" means. -/
def preorderFlatten : List MessagePart → List MessagePart
  | [] => []
  | part :: rest =>
    part :: ((match part with
              | .mk _ _ _ (some subs) => preorderFlatten subs
              | .mk _ _ _ none => [])
             ++ preorderFlatten rest)

/-- The `attachments().get(...).execute()` response dictionary: only
its optional `data` key (a base64url string) is read. -/
structure AttachmentResponse where
  data : Option String
  deriving Repr, DecidableEq

/-- The full message returned by `messages().get(..., format='full')`:
a flat header list under `payload.headers` and the part tree root
`payload`. -/
structure FullMessage where
  headers : List (String × String)
  payload : MessagePart

/-- The external collaborators the processor calls.  `Except` results
stand for calls that may raise; `b64decode` models
`base64.urlsafe_b64decode` and `pdfExtract` models pdfminer's
`extract_text_to_fp` (its result is a raw, untrimmed string). -/
structure Env where
  getFullMessage : String → Except String FullMessage
  getAttachment : String → String → Except String AttachmentResponse
  b64decode : String → List Nat
  pdfExtract : List Nat → Except String String

/-- The run configuration: the search query and the MIME allow-list. -/
structure Config where
  gmailQuery : String
  targetMimes : List String
  deriving Repr, DecidableEq

/-- The record pushed to the dataset sink (main.py lines 188–198). -/
structure Record where
  messageId : String
  subject : String
  date : String
  attachmentName : Option String
  gmailQueryUsed : String
  targetMimes : List String
  attachmentContentText : String
  deriving Repr, DecidableEq

/-- `get_attachment_data` (main.py lines 40–53): an `HttpError` from
the API call is caught (logged) and yields `None`; on success the
response's `data` key, when truthy, is base64url-decoded, and a missing
or empty `data` falls through to `return None`. -/
def get_attachment_data (env : Env) (msg_id att_id : String) : Option (List Nat) :=
  match env.getAttachment msg_id att_id with
  | .error _ => none
  | .ok att =>
    match att.data with
    | some d => if d = "" then none else some (env.b64decode d)
    | none => none

/-- `extract_pdf_text` (main.py lines 30–37): run pdfminer and strip
surrounding whitespace; a pdfminer failure propagates to the caller. -/
def extract_pdf_text (env : Env) (pdf_bytes : List Nat) : Except String String :=
  match env.pdfExtract pdf_bytes with
  | .ok s => .ok s.trim
  | .error e => .error e

/-- Dictionary built by `{h['name']: h['value'] for h in headers}`:
a later entry for the same name overwrites an earlier one. -/
def headersGet (hs : List (String × String)) (name : String) : Option String :=
  match hs with
  | [] => none
  | (n, v) :: rest =>
    match headersGet rest name with
    | some w => some w
    | none => if n = name then some v else none

/-- main.py line 150: the part list walked for a message — the
payload's `parts` when present, else the singleton payload. -/
def allParts (msg : FullMessage) : List MessagePart :=
  match msg.payload.parts with
  | some ps => ps
  | none => [msg.payload]

/-- main.py line 182: the placeholder text stored for a fetched
attachment that is not converted to text. -/
def binaryPlaceholder (filename : String) (n : Nat) : String :=
  "Binary content of " ++ filename ++ " was not processed to text. Size: " ++
    toString n ++ " bytes."

/-- main.py lines 164–183: given the chosen part, its attachment id and
its (defaulted) filename, compute the pair
`(attachment_content_text, attachment_filename)`.  `attachment_bytes`
truthiness requires a present, non-empty byte string; a PDF-typed part
goes through `extract_pdf_text` with failures caught (both variables
left `None`); any other type gets the placeholder text. -/
def attachmentTextPair (env : Env) (msg_id : String) (part : MessagePart)
    (att_id filename : String) : Option String × Option String :=
  match get_attachment_data env msg_id att_id with
  | none => (none, none)
  | some bs =>
    if bs = [] then (none, none)
    else if part.mimeType = some "application/pdf" then
      match extract_pdf_text env bs with
      | .ok t => (some t, some filename)
      | .error _ => (none, none)
    else
      (some (binaryPlaceholder filename bs.length), some filename)

/-- The body of the per-message loop (main.py lines 138–203) before
its `except` boundary: `.error` marks an uncaught exception escaping to
that boundary (a failing `messages().get` call, or the `KeyError` of
`part['body']['attachmentId']`); `.ok none` means the message is
skipped; `.ok (some r)` means record `r` is pushed. -/
def processMessageExc (env : Env) (cfg : Config) (msg_id : String) :
    Except String (Option Record) :=
  match env.getFullMessage msg_id with
  | .error e => .error e
  | .ok msg =>
    let subject := (headersGet msg.headers "Subject").getD "No Subject"
    let date := (headersGet msg.headers "Date").getD "No Date"
    match find_mime_parts (allParts msg) cfg.targetMimes with
    | [] => .ok none
    | part :: _ =>
      let filename := part.filename.getD "untitled_attachment"
      match part.attId with
      | none => .error "KeyError: attachmentId"
      | some att_id =>
        match attachmentTextPair env msg_id part att_id filename with
        | (some t, fname) =>
          if t = "" then .ok none
          else .ok (some { messageId := msg_id, subject := subject, date := date,
                           attachmentName := fname, gmailQueryUsed := cfg.gmailQuery,
                           targetMimes := cfg.targetMimes, attachmentContentText := t })
        | (none, _) => .ok none

/-- One message through the per-message `try`/`except` (main.py lines
138–205): any exception is caught and logged, and the message then
yields no record. -/
def processMessage (env : Env) (cfg : Config) (msg_id : String) : Option Record :=
  match processMessageExc env cfg msg_id with
  | .ok r => r
  | .error _ => none

/-- The driver loop (main.py lines 134–205): messages in list order,
each contributing its record, if any, to the sink. -/
def runPipeline (env : Env) (cfg : Config) (msg_ids : List String) : List Record :=
  msg_ids.filterMap (processMessage env cfg)

/-- Observable events of the driver loop, in order: the start-of-
processing log line for a message, and a push of a record to the
sink. -/
inductive Event : Type where
  | startProcessing : String → Event
  | pushRecord : Record → Event
  deriving DecidableEq

/-- The event trace of the driver loop: for each message in list order,
its start event, then its push event when it emits a record. -/
def runTrace (env : Env) (cfg : Config) : List String → List Event
  | [] => []
  | m :: ms =>
    Event.startProcessing m ::
      ((processMessage env cfg m).toList.map Event.pushRecord ++ runTrace env cfg ms)

/-- The records a trace pushes to the sink, in trace order. -/
def pushedRecords : List Event → List Record
  | [] => []
  | Event.pushRecord r :: rest => r :: pushedRecords rest
  | Event.startProcessing _ :: rest => pushedRecords rest

/-!  Shared lemmas. -/

/-- `find_mime_parts` computes the qualifying-part filter of the
depth-first pre-order flattening. -/
lemma find_eq_preorder_filter (ps : List MessagePart) (tm : List String) :
    find_mime_parts ps tm = (preorderFlatten ps).filter (fun p => partQualifies p tm) := by
  induction ps, tm using find_mime_parts.induct with
  | case1 tm => simp [find_mime_parts, preorderFlatten]
  | case2 part rest tm ih1 ih2 =>
    obtain ⟨mt, fn, bd, prts⟩ := part
    cases prts with
    | some subs =>
      simp only [] at ih1
      simp [find_mime_parts, preorderFlatten, List.filter_append, ih1, ih2, List.filter_cons]
      by_cases h : partQualifies (.mk mt fn bd (some subs)) tm <;> simp [h]
    | none =>
      simp [find_mime_parts, preorderFlatten, List.filter_append, ih2, List.filter_cons]
      by_cases h : partQualifies (.mk mt fn bd none) tm <;> simp [h]

/-- Every part returned by `find_mime_parts` qualifies. -/
lemma qualifies_of_mem_find {ps : List MessagePart} {tm : List String} {p : MessagePart}
    (h : p ∈ find_mime_parts ps tm) : partQualifies p tm = true := by
  rw [find_eq_preorder_filter] at h
  exact (List.mem_filter.mp h).2

/-- A part returned by `find_mime_parts` carries a non-empty
attachment id. -/
lemma attId_of_find {ps : List MessagePart} {tm : List String} {p : MessagePart}
    (h : p ∈ find_mime_parts ps tm) : ∃ a, p.attId = some a ∧ a ≠ "" := by
  have hq := qualifies_of_mem_find h
  simp only [partQualifies, Bool.and_eq_true] at hq
  have hatt : optStrTruthy p.attId = true := hq.2
  cases ha : p.attId with
  | none => rw [ha] at hatt; simp [optStrTruthy] at hatt
  | some a =>
    rw [ha] at hatt
    simp only [optStrTruthy, decide_eq_true_eq] at hatt
    exact ⟨a, rfl, hatt⟩

/-- Unfolding of `processMessage` once the full message is fetched:
the per-message outcome as a function of the part search, the chosen
part's attachment id and the text-extraction pair. -/
lemma processMessage_ok (env : Env) (cfg : Config) (msg_id : String) (msg : FullMessage)
    (hmsg : env.getFullMessage msg_id = .ok msg) :
    processMessage env cfg msg_id =
      match find_mime_parts (allParts msg) cfg.targetMimes with
      | [] => none
      | part :: _ =>
        match part.attId with
        | none => none
        | some att_id =>
          match attachmentTextPair env msg_id part att_id
              (part.filename.getD "untitled_attachment") with
          | (some t, fname) =>
            if t = "" then none
            else some { messageId := msg_id,
                        subject := (headersGet msg.headers "Subject").getD "No Subject",
                        date := (headersGet msg.headers "Date").getD "No Date",
                        attachmentName := fname, gmailQueryUsed := cfg.gmailQuery,
                        targetMimes := cfg.targetMimes, attachmentContentText := t }
          | (none, _) => none := by
  unfold processMessage processMessageExc
  rw [hmsg]
  cases hfind : find_mime_parts (allParts msg) cfg.targetMimes with
  | nil => simp [hfind]
  | cons part rest =>
    cases hatt : part.attId with
    | none => simp [hfind, hatt]
    | some att_id =>
      cases hpair : attachmentTextPair env msg_id part att_id
          (part.filename.getD "untitled_attachment") with
      | mk o fname =>
        cases o with
        | none => simp [hfind, hatt, hpair]
        | some t =>
          by_cases ht : t = "" <;> simp [hfind, hatt, hpair, ht]

/-- A failing full-message fetch is caught at the per-message boundary
and yields no record. -/
lemma processMessage_err (env : Env) (cfg : Config) (msg_id e : String)
    (hmsg : env.getFullMessage msg_id = .error e) :
    processMessage env cfg msg_id = none := by
  simp [processMessage, processMessageExc, hmsg]

/-- The placeholder string is never empty. -/
lemma binaryPlaceholder_ne_empty (f : String) (n : Nat) : binaryPlaceholder f n ≠ "" := by
  intro h
  have h2 := congrArg String.length h
  rw [binaryPlaceholder] at h2
  simp only [String.length_append] at h2
  have h3 : ("Binary content of ").length = 18 := rfl
  have h4 : ("").length = 0 := rfl
  omega

/-- When `attachmentTextPair` produces text, the filename slot is the
chosen filename. -/
lemma attachmentTextPair_snd {env : Env} {msg_id : String} {part : MessagePart}
    {att_id filename t : String} {fname : Option String}
    (h : attachmentTextPair env msg_id part att_id filename = (some t, fname)) :
    fname = some filename := by
  unfold attachmentTextPair at h
  cases hga : get_attachment_data env msg_id att_id with
  | none => rw [hga] at h; simp at h
  | some bs =>
    rw [hga] at h
    by_cases hbs : bs = []
    · simp [hbs] at h
    · by_cases hpdf : part.mimeType = some "application/pdf"
      · simp [hbs, hpdf] at h
        cases hx : extract_pdf_text env bs with
        | ok raw => rw [hx] at h; simp at h; exact h.2.symm
        | error e => rw [hx] at h; simp at h
      · simp [hbs, hpdf] at h
        exact h.2.symm

/-- When `attachmentTextPair` produces text for a non-PDF part, the
text is the placeholder for the fetched byte length. -/
lemma attachmentTextPair_nonpdf {env : Env} {msg_id : String} {part : MessagePart}
    {att_id filename t : String} {fname : Option String}
    (hmime : part.mimeType ≠ some "application/pdf")
    (h : attachmentTextPair env msg_id part att_id filename = (some t, fname)) :
    ∃ bs, get_attachment_data env msg_id att_id = some bs ∧ bs ≠ [] ∧
      t = binaryPlaceholder filename bs.length := by
  unfold attachmentTextPair at h
  cases hga : get_attachment_data env msg_id att_id with
  | none => rw [hga] at h; simp at h
  | some bs =>
    rw [hga] at h
    by_cases hbs : bs = []
    · simp [hbs] at h
    · simp [hbs, hmime] at h
      exact ⟨bs, rfl, hbs, h.1.symm⟩

/-- Successful `extract_pdf_text` is pdfminer's output, trimmed. -/
lemma extract_pdf_text_ok {env : Env} {bs : List Nat} {t : String}
    (h : extract_pdf_text env bs = .ok t) :
    ∃ raw, env.pdfExtract bs = .ok raw ∧ t = raw.trim := by
  unfold extract_pdf_text at h
  cases hx : env.pdfExtract bs with
  | ok s => rw [hx] at h; simp at h; exact ⟨s, rfl, h.symm⟩
  | error e => rw [hx] at h; simp at h

/-- Full characterization of a text-producing `attachmentTextPair`:
the fetch succeeded with non-empty bytes, the filename slot is the
chosen filename, and the text is either trimmed pdfminer output (PDF
declared type) or the placeholder (any other type). -/
lemma attachmentTextPair_some {env : Env} {msg_id : String} {part : MessagePart}
    {att_id filename t : String} {fname : Option String}
    (h : attachmentTextPair env msg_id part att_id filename = (some t, fname)) :
    ∃ bs, get_attachment_data env msg_id att_id = some bs ∧ bs ≠ [] ∧
      fname = some filename ∧
      ((part.mimeType = some "application/pdf" ∧
        ∃ raw, env.pdfExtract bs = .ok raw ∧ t = raw.trim) ∨
       (part.mimeType ≠ some "application/pdf" ∧
        t = binaryPlaceholder filename bs.length)) := by
  unfold attachmentTextPair at h
  cases hga : get_attachment_data env msg_id att_id with
  | none => rw [hga] at h; simp at h
  | some bs =>
    rw [hga] at h
    by_cases hbs : bs = []
    · simp [hbs] at h
    · by_cases hpdf : part.mimeType = some "application/pdf"
      · simp [hbs, hpdf] at h
        cases hx : extract_pdf_text env bs with
        | ok raw0 =>
          rw [hx] at h
          simp at h
          obtain ⟨raw, hraw, htrim⟩ := extract_pdf_text_ok hx
          exact ⟨bs, rfl, hbs, h.2.symm, Or.inl ⟨hpdf, raw, hraw, h.1 ▸ htrim⟩⟩
        | error e => rw [hx] at h; simp at h
      · simp [hbs, hpdf] at h
        exact ⟨bs, rfl, hbs, h.2.symm, Or.inr ⟨hpdf, h.1.symm⟩⟩

/-!  Concrete fixtures used by witnesses and counterexamples.  The
environments assign fixed collaborator behaviour; `b64decode` and
`pdfExtract` stand for the external library calls. -/

def partPdfA : MessagePart :=
  .mk (some "application/pdf") (some "a.pdf") (some ⟨some "attA"⟩) none

def partPdfB : MessagePart :=
  .mk (some "application/pdf") (some "b.pdf") (some ⟨some "attB"⟩) none

def partPng : MessagePart :=
  .mk (some "image/png") (some "pic.png") (some ⟨some "attP"⟩) none

def partPng2 : MessagePart :=
  .mk (some "image/png") (some "pic2.png") (some ⟨some "attQ"⟩) none

def partPngNoName : MessagePart :=
  .mk (some "image/png") none (some ⟨some "attP"⟩) none

def msgWith (ps : List MessagePart) : FullMessage :=
  { headers := [("Subject", "Rate Confirmation"), ("Date", "Mon, 1 Jan 2024")],
    payload := .mk (some "multipart/mixed") none none (some ps) }

def cfgPdf : Config := { gmailQuery := "q", targetMimes := ["application/pdf"] }

def cfgPng : Config := { gmailQuery := "q", targetMimes := ["image/png"] }

def envMsgFetchFails : Env :=
  { getFullMessage := fun _ => .error "HttpError 500",
    getAttachment := fun _ _ => .error "HttpError 500",
    b64decode := fun _ => [], pdfExtract := fun _ => .error "pdf" }

def envAttFetchFails : Env :=
  { getFullMessage := fun _ => .ok (msgWith [partPdfA, partPdfB]),
    getAttachment := fun _ _ => .error "HttpError 500",
    b64decode := fun _ => [], pdfExtract := fun _ => .error "pdf" }

def envPng : Env :=
  { getFullMessage := fun _ => .ok (msgWith [partPng]),
    getAttachment := fun _ _ => .ok { data := some "QUJD" },
    b64decode := fun _ => [65, 66, 67], pdfExtract := fun _ => .error "pdf" }

def envTwoPng : Env :=
  { getFullMessage := fun _ => .ok (msgWith [partPng, partPng2]),
    getAttachment := fun _ _ => .ok { data := some "QUJD" },
    b64decode := fun _ => [65, 66, 67], pdfExtract := fun _ => .error "pdf" }

def envPngNoName : Env :=
  { getFullMessage := fun _ => .ok (msgWith [partPngNoName]),
    getAttachment := fun _ _ => .ok { data := some "QUJD" },
    b64decode := fun _ => [65, 66, 67], pdfExtract := fun _ => .error "pdf" }

def envPngEmptyDecode : Env :=
  { getFullMessage := fun _ => .ok (msgWith [partPng]),
    getAttachment := fun _ _ => .ok { data := some "==" },
    b64decode := fun _ => [], pdfExtract := fun _ => .error "pdf" }

def envPdfExtractFails : Env :=
  { getFullMessage := fun _ => .ok (msgWith [partPdfA]),
    getAttachment := fun _ _ => .ok { data := some "QUJD" },
    b64decode := fun _ => [65, 66, 67], pdfExtract := fun _ => .error "PDFSyntaxError" }

def envEmptyData : Env :=
  { getFullMessage := fun _ => .error "unused",
    getAttachment := fun _ _ => .ok { data := some "" },
    b64decode := fun _ => [], pdfExtract := fun _ => .error "pdf" }

/-!  Theorems settling the claims. -/

/-- C1: for every list of message parts and every allow-list,
`find_mime_parts` returns exactly the parts whose MIME type is in the
allow-list and whose body carries a non-empty attachment id — so a part
with a matching type but no attachment reference is never returned —
listed in depth-first pre-order (each qualifying parent before its
qualifying descendants, siblings in given order), at any depth. -/
theorem find_mime_parts_is_preorder_filter (ps : List MessagePart) (tm : List String) :
    find_mime_parts ps tm = (preorderFlatten ps).filter (fun p => partQualifies p tm) :=
  find_eq_preorder_filter ps tm

/-- C5: an exception escaping the per-message processing of a message
`m` is caught at the per-message boundary: `m` is dropped (no record),
and the records of all other messages of the run, before and after
`m`, are exactly what they would be in a run without `m`. -/
theorem per_message_exception_isolated (env : Env) (cfg : Config)
    (pre post : List String) (m e : String)
    (h : processMessageExc env cfg m = .error e) :
    processMessage env cfg m = none ∧
    runPipeline env cfg (pre ++ m :: post) =
      runPipeline env cfg pre ++ runPipeline env cfg post := by
  have hm : processMessage env cfg m = none := by simp [processMessage, h]
  exact ⟨hm, by simp [runPipeline, List.filterMap_append, List.filterMap_cons, hm]⟩

/-- Witness for C5 at a concrete run: the middle message's fetch
raises, it is dropped, and the two other messages' records are
untouched. -/
theorem per_message_exception_isolated_witness :
    processMessage envMsgFetchFails cfgPdf "m2" = none ∧
    runPipeline envMsgFetchFails cfgPdf (["m1"] ++ "m2" :: ["m3"]) =
      runPipeline envMsgFetchFails cfgPdf ["m1"] ++ runPipeline envMsgFetchFails cfgPdf ["m3"] :=
  per_message_exception_isolated envMsgFetchFails cfgPdf ["m1"] ["m3"] "m2" "HttpError 500" rfl

/-- C9: the driver is strictly sequential: the trace of a run on
`ms1 ++ ms2` is the trace on `ms1` followed by the trace on `ms2`; in
the trace each message's start event precedes its push, which precedes
every later message's events; and the records reaching the sink are
exactly the per-message records in candidate-list order. -/
theorem pipeline_sequential_order (env : Env) (cfg : Config) (ms1 ms2 : List String) :
    runTrace env cfg (ms1 ++ ms2) = runTrace env cfg ms1 ++ runTrace env cfg ms2 ∧
    pushedRecords (runTrace env cfg ms1) = runPipeline env cfg ms1 ∧
    runPipeline env cfg (ms1 ++ ms2) = runPipeline env cfg ms1 ++ runPipeline env cfg ms2 := by
  refine ⟨?_, ?_, ?_⟩
  · induction ms1 with
    | nil => simp [runTrace]
    | cons m ms ih => simp [runTrace, ih]
  · induction ms1 with
    | nil => simp [runTrace, pushedRecords, runPipeline]
    | cons m ms ih =>
      cases h : processMessage env cfg m <;>
        simp [runTrace, pushedRecords, runPipeline, List.filterMap_cons, h, ih]
  · simp [runPipeline, List.filterMap_append]

/-- C6: `find_mime_parts` is a total function (the embedding admits no
exception), an absent (`None`) or empty part list yields the empty
sequence, and a malformed part — missing MIME type, body or attachment
id, with no children — yields no matches rather than an error. -/
theorem find_mime_parts_total_on_empty (tm : List String) :
    find_mime_parts_opt none tm = [] ∧
    find_mime_parts [] tm = [] ∧
    (∀ mt fn, find_mime_parts [MessagePart.mk mt fn none none] tm = []) ∧
    (∀ fn bd, find_mime_parts [MessagePart.mk none fn bd none] tm = []) := by
  refine ⟨rfl, by simp [find_mime_parts], ?_, ?_⟩
  · intro mt fn
    simp [find_mime_parts, partQualifies, optStrTruthy, MessagePart.attId, MessagePart.body]
  · intro fn bd
    simp [find_mime_parts, partQualifies, mimeMatches, MessagePart.mimeType]

/-- C4: a record is pushed for a message exactly when the text step
produced a non-empty string (real extracted text, or the placeholder,
which is never empty by `binaryPlaceholder_ne_empty`); in particular a
failed message fetch, an empty qualifying-part list, a failed
attachment fetch, a failed PDF extraction and a PDF whose trimmed text
is empty all make `attachmentTextPair` yield no usable text and so
yield zero records, never an empty one. -/
theorem record_pushed_iff (env : Env) (cfg : Config) (msg_id : String) :
    (∃ r, processMessage env cfg msg_id = some r) ↔
    (∃ msg part rest att_id t,
      env.getFullMessage msg_id = .ok msg ∧
      find_mime_parts (allParts msg) cfg.targetMimes = part :: rest ∧
      part.attId = some att_id ∧
      (attachmentTextPair env msg_id part att_id
        (part.filename.getD "untitled_attachment")).1 = some t ∧
      t ≠ "") := by
  constructor
  · rintro ⟨r, hr⟩
    cases hmsg : env.getFullMessage msg_id with
    | error e => rw [processMessage_err env cfg msg_id e hmsg] at hr; simp at hr
    | ok msg =>
      rw [processMessage_ok env cfg msg_id msg hmsg] at hr
      rcases hfind : find_mime_parts (allParts msg) cfg.targetMimes with _ | ⟨part, rest⟩
      · rw [hfind] at hr; simp at hr
      · rw [hfind] at hr
        dsimp only [] at hr
        rcases hatt : part.attId with _ | att_id
        · rw [hatt] at hr; simp at hr
        · rw [hatt] at hr
          try dsimp only [] at hr
          rcases hpair : attachmentTextPair env msg_id part att_id
              (part.filename.getD "untitled_attachment") with ⟨o, fname⟩
          rw [hpair] at hr
          try dsimp only [] at hr
          rcases o with _ | t
          · simp at hr
          · by_cases ht : t = ""
            · simp [ht] at hr
            · exact ⟨msg, part, rest, att_id, t, rfl, hfind, hatt, by rw [hpair], ht⟩
  · rintro ⟨msg, part, rest, att_id, t, hmsg, hfind, hatt, hpairfst, ht⟩
    rw [processMessage_ok env cfg msg_id msg hmsg, hfind]
    dsimp only []
    rw [hatt]
    dsimp only []
    rcases hpair : attachmentTextPair env msg_id part att_id
        (part.filename.getD "untitled_attachment") with ⟨o, fname⟩
    rw [hpair] at hpairfst
    try dsimp only [] at hpairfst
    rw [hpairfst]
    try dsimp only []
    refine ⟨{ messageId := msg_id, subject := (headersGet msg.headers "Subject").getD "No Subject",
              date := (headersGet msg.headers "Date").getD "No Date", attachmentName := fname,
              gmailQueryUsed := cfg.gmailQuery, targetMimes := cfg.targetMimes,
              attachmentContentText := t }, ?_⟩
    rw [if_neg ht]

/-- Witness for C4 at a concrete run: a PNG attachment is fetched, so
the placeholder text is non-empty and a record exists. -/
theorem record_pushed_iff_witness :
    ∃ r, processMessage envPng cfgPng "m" = some r := by
  refine (record_pushed_iff envPng cfgPng "m").mpr
    ⟨msgWith [partPng], partPng, [], "attP", binaryPlaceholder "pic.png" 3, rfl, ?_, rfl, ?_, ?_⟩
  · simp [allParts, msgWith, cfgPng, find_mime_parts, partPng, partQualifies, mimeMatches,
      optStrTruthy, MessagePart.attId, MessagePart.body, MessagePart.mimeType, MessagePart.parts]
  · rfl
  · exact binaryPlaceholder_ne_empty "pic.png" 3

/-- C2 counterexample: a non-PDF attachment whose bytes WERE fetched —
`get_attachment_data` succeeds and returns the empty byte string (as
`base64.urlsafe_b64decode` does on a padding-only payload) — yet no
placeholder record is stored: Python's `elif attachment_bytes:` is
falsy on empty bytes, so the claim's "stored text is exactly the
placeholder" fails at this input. -/
theorem nonpdf_placeholder_counterexample :
    get_attachment_data envPngEmptyDecode "m" "attP" = some [] ∧
    partPng.mimeType = some "image/png" ∧
    runPipeline envPngEmptyDecode cfgPng ["m"] = [] := by
  refine ⟨rfl, rfl, ?_⟩
  have h1 : processMessage envPngEmptyDecode cfgPng "m" = none := by
    rw [processMessage_ok envPngEmptyDecode cfgPng "m" (msgWith [partPng]) rfl]
    simp [allParts, msgWith, cfgPng, find_mime_parts, partPng, partQualifies, mimeMatches,
      optStrTruthy, MessagePart.attId, MessagePart.body, MessagePart.mimeType,
      MessagePart.parts, MessagePart.filename, attachmentTextPair, get_attachment_data,
      envPngEmptyDecode]
  simp [runPipeline, h1]

/-- C2 (amended): for every message whose chosen qualifying attachment
is declared non-PDF and whose fetch yields a NON-EMPTY payload, the
stored text is exactly
`"Binary content of {filename} was not processed to text. Size: {N} bytes."`
with `{filename}` the chosen part's filename and `{N}` the decoded
byte length (an empty fetched payload stores nothing instead). -/
theorem nonpdf_placeholder_exact (env : Env) (cfg : Config) (msg_id : String)
    (msg : FullMessage) (part : MessagePart) (rest : List MessagePart)
    (att_id : String) (bs : List Nat)
    (hmsg : env.getFullMessage msg_id = .ok msg)
    (hfind : find_mime_parts (allParts msg) cfg.targetMimes = part :: rest)
    (hmime : part.mimeType ≠ some "application/pdf")
    (hatt : part.attId = some att_id)
    (hbs : get_attachment_data env msg_id att_id = some bs)
    (hne : bs ≠ []) :
    processMessage env cfg msg_id =
      some { messageId := msg_id,
             subject := (headersGet msg.headers "Subject").getD "No Subject",
             date := (headersGet msg.headers "Date").getD "No Date",
             attachmentName := some (part.filename.getD "untitled_attachment"),
             gmailQueryUsed := cfg.gmailQuery,
             targetMimes := cfg.targetMimes,
             attachmentContentText :=
               binaryPlaceholder (part.filename.getD "untitled_attachment") bs.length } := by
  rw [processMessage_ok env cfg msg_id msg hmsg, hfind]
  try dsimp only []
  rw [hatt]
  try dsimp only []
  have hpair : attachmentTextPair env msg_id part att_id
      (part.filename.getD "untitled_attachment") =
      (some (binaryPlaceholder (part.filename.getD "untitled_attachment") bs.length),
       some (part.filename.getD "untitled_attachment")) := by
    unfold attachmentTextPair
    rw [hbs]
    simp [hne, hmime]
  rw [hpair]
  try dsimp only []
  rw [if_neg (binaryPlaceholder_ne_empty _ _)]

/-- Witness for the amended C2: a fetched 3-byte PNG attachment stores
exactly the placeholder text. -/
theorem nonpdf_placeholder_exact_witness :
    processMessage envPng cfgPng "m" =
      some { messageId := "m", subject := "Rate Confirmation", date := "Mon, 1 Jan 2024",
             attachmentName := some "pic.png", gmailQueryUsed := "q",
             targetMimes := ["image/png"],
             attachmentContentText := binaryPlaceholder "pic.png" 3 } :=
  nonpdf_placeholder_exact envPng cfgPng "m" (msgWith [partPng]) partPng [] "attP"
    [65, 66, 67] rfl
    (by simp [allParts, msgWith, cfgPng, find_mime_parts, partPng, partQualifies, mimeMatches,
          optStrTruthy, MessagePart.attId, MessagePart.body, MessagePart.mimeType,
          MessagePart.parts])
    (by simp [partPng, MessagePart.mimeType]) rfl rfl (by simp)

/-- C3 counterexample: a message whose discovered qualifying-attachment
sequence has two entries yields ZERO output records when the first
attachment's fetch fails — not "exactly one record" as claimed: the
single-attachment policy gives at most one record, not exactly one. -/
theorem first_attachment_only_counterexample :
    2 ≤ (find_mime_parts (allParts (msgWith [partPdfA, partPdfB])) cfgPdf.targetMimes).length ∧
    envAttFetchFails.getFullMessage "m" = .ok (msgWith [partPdfA, partPdfB]) ∧
    runPipeline envAttFetchFails cfgPdf ["m"] = [] := by
  refine ⟨?_, rfl, ?_⟩
  · simp [allParts, msgWith, cfgPdf, find_mime_parts, partPdfA, partPdfB, partQualifies,
      mimeMatches, optStrTruthy, MessagePart.attId, MessagePart.body, MessagePart.mimeType,
      MessagePart.parts]
  · have h1 : processMessage envAttFetchFails cfgPdf "m" = none := by
      rw [processMessage_ok envAttFetchFails cfgPdf "m" (msgWith [partPdfA, partPdfB]) rfl]
      simp [allParts, msgWith, cfgPdf, find_mime_parts, partPdfA, partPdfB, partQualifies,
        mimeMatches, optStrTruthy, MessagePart.attId, MessagePart.body, MessagePart.mimeType,
        MessagePart.parts, MessagePart.filename, attachmentTextPair, get_attachment_data,
        envAttFetchFails]
    simp [runPipeline, h1]

/-- C3 (amended): a processed message yields AT MOST one output record;
whenever a record is emitted for a message whose discovered sequence is
`part :: rest`, the run over that single message yields exactly that
one record, and the record is derived from `part` — the first entry in
traversal order — alone (its filename, its attachment id, its declared
MIME type decide every attachment-dependent field); all other entries
of the sequence are ignored. -/
theorem first_attachment_only (env : Env) (cfg : Config) (msg_id : String)
    (msg : FullMessage) (part : MessagePart) (rest : List MessagePart) (r : Record)
    (hmsg : env.getFullMessage msg_id = .ok msg)
    (hfind : find_mime_parts (allParts msg) cfg.targetMimes = part :: rest)
    (hproc : processMessage env cfg msg_id = some r) :
    runPipeline env cfg [msg_id] = [r] ∧
    r.attachmentName = some (part.filename.getD "untitled_attachment") ∧
    ∃ att_id bs, part.attId = some att_id ∧
      get_attachment_data env msg_id att_id = some bs ∧ bs ≠ [] ∧
      ((part.mimeType = some "application/pdf" ∧
        ∃ raw, env.pdfExtract bs = .ok raw ∧ r.attachmentContentText = raw.trim) ∨
       (part.mimeType ≠ some "application/pdf" ∧
        r.attachmentContentText =
          binaryPlaceholder (part.filename.getD "untitled_attachment") bs.length)) := by
  have hrun : runPipeline env cfg [msg_id] = [r] := by
    simp [runPipeline, List.filterMap_cons, hproc]
  rw [processMessage_ok env cfg msg_id msg hmsg, hfind] at hproc
  try dsimp only [] at hproc
  cases hatt : part.attId with
  | none => rw [hatt] at hproc; simp at hproc
  | some att_id =>
    rw [hatt] at hproc
    try dsimp only [] at hproc
    rcases hpair : attachmentTextPair env msg_id part att_id
        (part.filename.getD "untitled_attachment") with ⟨o, fname⟩
    rw [hpair] at hproc
    try dsimp only [] at hproc
    rcases o with _ | t
    · simp at hproc
    · by_cases ht : t = ""
      · simp [ht] at hproc
      · simp only [ht, if_false, if_neg] at hproc
        have hr := Option.some.inj hproc
        subst hr
        obtain ⟨bs, hga, hbs, hfn, hbranch⟩ := attachmentTextPair_some hpair
        refine ⟨hrun, ?_, att_id, bs, rfl, hga, hbs, ?_⟩
        · simpa using hfn
        · rcases hbranch with ⟨hpdf, raw, hraw, htrim⟩ | ⟨hpdf, hph⟩
          · exact Or.inl ⟨hpdf, raw, hraw, by simpa using htrim⟩
          · exact Or.inr ⟨hpdf, by simpa using hph⟩

/-- The record the first PNG attachment of the two-attachment fixture
produces. -/
def recFirstPng : Record :=
  { messageId := "m", subject := "Rate Confirmation", date := "Mon, 1 Jan 2024",
    attachmentName := some "pic.png", gmailQueryUsed := "q",
    targetMimes := ["image/png"],
    attachmentContentText := binaryPlaceholder "pic.png" 3 }

/-- Witness for the amended C3: a message with two qualifying PNG
attachments emits exactly one record, built from the first one. -/
theorem first_attachment_only_witness :
    runPipeline envTwoPng cfgPng ["m"] = [recFirstPng] ∧
    recFirstPng.attachmentName = some "pic.png" ∧
    ∃ att_id bs, partPng.attId = some att_id ∧
      get_attachment_data envTwoPng "m" att_id = some bs ∧ bs ≠ [] ∧
      ((partPng.mimeType = some "application/pdf" ∧
        ∃ raw, envTwoPng.pdfExtract bs = .ok raw ∧
          recFirstPng.attachmentContentText = raw.trim) ∨
       (partPng.mimeType ≠ some "application/pdf" ∧
        recFirstPng.attachmentContentText = binaryPlaceholder "pic.png" bs.length)) :=
  first_attachment_only envTwoPng cfgPng "m" (msgWith [partPng, partPng2]) partPng [partPng2]
    recFirstPng rfl
    (by simp [allParts, msgWith, cfgPng, find_mime_parts, partPng, partPng2, partQualifies,
          mimeMatches, optStrTruthy, MessagePart.attId, MessagePart.body, MessagePart.mimeType,
          MessagePart.parts])
    (by rw [processMessage_ok envTwoPng cfgPng "m" (msgWith [partPng, partPng2]) rfl]
        simp [allParts, msgWith, cfgPng, find_mime_parts, partPng, partPng2, partQualifies,
          mimeMatches, optStrTruthy, MessagePart.attId, MessagePart.body, MessagePart.mimeType,
          MessagePart.parts, MessagePart.filename, attachmentTextPair, get_attachment_data,
          envTwoPng, recFirstPng]
        exact ⟨binaryPlaceholder_ne_empty "pic.png" 3, rfl, rfl⟩)

/-- C7 counterexample: the attachment API call SUCCEEDS and returns an
empty `data` payload, whose base64url decoding is the empty byte
string — yet `get_attachment_data` returns `None` rather than the
decoded bytes of the payload, because `if data:` is falsy on the empty
string.  The claim's "on success it returns the decoded bytes" is
false at this input. -/
theorem get_attachment_data_counterexample :
    envEmptyData.getAttachment "m" "a" = .ok { data := some "" } ∧
    get_attachment_data envEmptyData "m" "a" ≠ some (envEmptyData.b64decode "") :=
  ⟨rfl, by simp [get_attachment_data, envEmptyData]⟩

/-- C7 (amended): a transport/API failure makes `get_attachment_data`
return no payload (`None`), never a propagated error; on success with a
TRUTHY (present, non-empty) encoded payload it returns the url-safe
base64 decoding of that payload; a missing or empty encoded payload
also yields `None`. -/
theorem get_attachment_data_cases (env : Env) (m a : String) :
    (∀ e, env.getAttachment m a = .error e → get_attachment_data env m a = none) ∧
    (∀ att, env.getAttachment m a = .ok att → att.data = none →
      get_attachment_data env m a = none) ∧
    (∀ att, env.getAttachment m a = .ok att → att.data = some "" →
      get_attachment_data env m a = none) ∧
    (∀ att d, env.getAttachment m a = .ok att → att.data = some d → d ≠ "" →
      get_attachment_data env m a = some (env.b64decode d)) := by
  refine ⟨?_, ?_, ?_, ?_⟩ <;> intros <;> simp [get_attachment_data, *]

/-- Witness for the amended C7: a successful fetch with non-empty
payload decodes; a failed fetch yields `None`. -/
theorem get_attachment_data_cases_witness :
    get_attachment_data envPng "m" "attP" = some (envPng.b64decode "QUJD") ∧
    get_attachment_data envAttFetchFails "m" "attA" = none :=
  ⟨(get_attachment_data_cases envPng "m" "attP").2.2.2 { data := some "QUJD" } "QUJD"
      rfl rfl (by simp),
   (get_attachment_data_cases envAttFetchFails "m" "attA").1 "HttpError 500" rfl⟩

/-- C8: when the chosen attachment is a declared PDF whose fetched
bytes are truthy and pdfminer raises, the error is caught locally at
the extraction call: the message yields no record, and the rest of the
run before and after it is unaffected. -/
theorem pdf_extraction_failure_isolated (env : Env) (cfg : Config)
    (pre post : List String) (msg_id : String) (msg : FullMessage)
    (part : MessagePart) (rest : List MessagePart) (att_id : String)
    (bs : List Nat) (e : String)
    (hmsg : env.getFullMessage msg_id = .ok msg)
    (hfind : find_mime_parts (allParts msg) cfg.targetMimes = part :: rest)
    (hmime : part.mimeType = some "application/pdf")
    (hatt : part.attId = some att_id)
    (hbs : get_attachment_data env msg_id att_id = some bs)
    (hne : bs ≠ [])
    (herr : env.pdfExtract bs = .error e) :
    processMessage env cfg msg_id = none ∧
    runPipeline env cfg (pre ++ msg_id :: post) =
      runPipeline env cfg pre ++ runPipeline env cfg post := by
  have h1 : processMessage env cfg msg_id = none := by
    rw [processMessage_ok env cfg msg_id msg hmsg, hfind]
    try dsimp only []
    rw [hatt]
    try dsimp only []
    have hpair : attachmentTextPair env msg_id part att_id
        (part.filename.getD "untitled_attachment") = (none, none) := by
      unfold attachmentTextPair
      rw [hbs]
      simp [hne, hmime, extract_pdf_text, herr]
    rw [hpair]
  exact ⟨h1, by simp [runPipeline, List.filterMap_append, List.filterMap_cons, h1]⟩

/-- Witness for C8: a PDF attachment is fetched but pdfminer fails;
the message is skipped and its neighbours are processed normally. -/
theorem pdf_extraction_failure_isolated_witness :
    processMessage envPdfExtractFails cfgPdf "m2" = none ∧
    runPipeline envPdfExtractFails cfgPdf (["m1"] ++ "m2" :: ["m3"]) =
      runPipeline envPdfExtractFails cfgPdf ["m1"] ++ runPipeline envPdfExtractFails cfgPdf ["m3"] :=
  pdf_extraction_failure_isolated envPdfExtractFails cfgPdf ["m1"] ["m3"] "m2"
    (msgWith [partPdfA]) partPdfA [] "attA" [65, 66, 67] "PDFSyntaxError" rfl
    (by simp [allParts, msgWith, cfgPdf, find_mime_parts, partPdfA, partQualifies,
          mimeMatches, optStrTruthy, MessagePart.attId, MessagePart.body, MessagePart.mimeType,
          MessagePart.parts])
    rfl rfl rfl (by simp) rfl

/-- C10: in every emitted record, the attachment name — and the
`{filename}` slot of the placeholder text — is
`part.get('filename', 'untitled_attachment')` of the chosen part: a
missing filename key becomes the literal default
`"untitled_attachment"`, while a filename explicitly present as the
empty string is kept as-is (Python `dict.get` only substitutes the
default for an absent key). -/
theorem filename_defaulting (env : Env) (cfg : Config) (msg_id : String)
    (msg : FullMessage) (part : MessagePart) (rest : List MessagePart) (r : Record)
    (hmsg : env.getFullMessage msg_id = .ok msg)
    (hfind : find_mime_parts (allParts msg) cfg.targetMimes = part :: rest)
    (hproc : processMessage env cfg msg_id = some r) :
    r.attachmentName = some (part.filename.getD "untitled_attachment") ∧
    (part.filename = none → r.attachmentName = some "untitled_attachment") ∧
    (part.filename = some "" → r.attachmentName = some "") ∧
    (part.mimeType ≠ some "application/pdf" →
      ∃ n, r.attachmentContentText =
        binaryPlaceholder (part.filename.getD "untitled_attachment") n) := by
  rw [processMessage_ok env cfg msg_id msg hmsg, hfind] at hproc
  try dsimp only [] at hproc
  cases hatt : part.attId with
  | none => rw [hatt] at hproc; simp at hproc
  | some att_id =>
    rw [hatt] at hproc
    try dsimp only [] at hproc
    rcases hpair : attachmentTextPair env msg_id part att_id
        (part.filename.getD "untitled_attachment") with ⟨o, fname⟩
    rw [hpair] at hproc
    try dsimp only [] at hproc
    rcases o with _ | t
    · simp at hproc
    · by_cases ht : t = ""
      · simp [ht] at hproc
      · simp only [ht, if_false, if_neg] at hproc
        have hr := Option.some.inj hproc
        subst hr
        have hfn := attachmentTextPair_snd hpair
        refine ⟨by simpa using hfn, ?_, ?_, ?_⟩
        · intro h0; simpa [h0] using hfn
        · intro h0; simpa [h0] using hfn
        · intro hmime
          obtain ⟨bs, hga, hbs, hph⟩ := attachmentTextPair_nonpdf hmime hpair
          exact ⟨bs.length, by simpa using hph⟩

/-- The record emitted for the filename-less PNG attachment fixture. -/
def recNoName : Record :=
  { messageId := "m", subject := "Rate Confirmation", date := "Mon, 1 Jan 2024",
    attachmentName := some "untitled_attachment", gmailQueryUsed := "q",
    targetMimes := ["image/png"],
    attachmentContentText := binaryPlaceholder "untitled_attachment" 3 }

/-- Witness for C10: an attachment part with no filename key is
emitted under the default name, which also fills the placeholder. -/
theorem filename_defaulting_witness :
    recNoName.attachmentName = some (partPngNoName.filename.getD "untitled_attachment") ∧
    (partPngNoName.filename = none → recNoName.attachmentName = some "untitled_attachment") ∧
    (partPngNoName.filename = some "" → recNoName.attachmentName = some "") ∧
    (partPngNoName.mimeType ≠ some "application/pdf" →
      ∃ n, recNoName.attachmentContentText =
        binaryPlaceholder (partPngNoName.filename.getD "untitled_attachment") n) :=
  filename_defaulting envPngNoName cfgPng "m" (msgWith [partPngNoName]) partPngNoName [] recNoName
    rfl
    (by simp [allParts, msgWith, cfgPng, find_mime_parts, partPngNoName, partQualifies,
          mimeMatches, optStrTruthy, MessagePart.attId, MessagePart.body, MessagePart.mimeType,
          MessagePart.parts])
    (by rw [processMessage_ok envPngNoName cfgPng "m" (msgWith [partPngNoName]) rfl]
        simp [allParts, msgWith, cfgPng, find_mime_parts, partPngNoName, partQualifies,
          mimeMatches, optStrTruthy, MessagePart.attId, MessagePart.body, MessagePart.mimeType,
          MessagePart.parts, MessagePart.filename, attachmentTextPair, get_attachment_data,
          envPngNoName, recNoName]
        exact ⟨binaryPlaceholder_ne_empty "untitled_attachment" 3, rfl, rfl⟩)

end GmailProcessor
